import Mathlib

/-
Verification of the chat-llm streaming assembler and conversation-state
logic (src/web/components/AppShell.tsx), as a shallow embedding.

Strings from the source are modelled as lists of characters (`Str`), so
that the character-by-character scanning loops of the source translate to
structural recursion.  Platform primitives that are not code of this
repository (the JS `JSON.parse`, `TextDecoder`, `crypto.randomUUID`,
`Date.now`) are modelled as parameters or, for `JSON.parse`, by an
executable JSON reader (`parseSSE`) that agrees with it on the payload
shapes the theorems evaluate.
-/

abbrev Str := List Char

/-- JS `String.prototype.trim` on the character-list representation. -/
def trimStr (s : Str) : Str :=
  ((s.dropWhile Char.isWhitespace).reverse.dropWhile Char.isWhitespace).reverse

/-- clamp from AppShell.tsx: `Math.max(min, Math.min(max, n))`. -/
def clamp (n mn mx : ℚ) : ℚ :=
  max mn (min mx n)

/-- estimateTokens from AppShell.tsx: `Math.max(1, Math.ceil(text.length / 4))`;
for a natural-number length, `Math.ceil(len / 4)` is `(len + 3) / 4` in
truncated natural division. -/
def estimateTokens (text : Str) : Nat :=
  max 1 ((text.length + 3) / 4)

/-- JS `String.prototype.includes`: `hasSub pat s` holds when `pat` occurs
as a contiguous substring of `s`. -/
def hasSub (pat : Str) : Str → Bool
  | [] => pat.isPrefixOf ([] : Str)
  | c :: rest => pat.isPrefixOf (c :: rest) || hasSub pat rest

/-- requiresImageToken from AppShell.tsx. -/
def requiresImageToken (modelId : Str) : Bool :=
  if modelId = [] then false
  else
    let lower := modelId.map Char.toLower
    if hasSub ("lfm2.5-vl".toList) lower then true
    else hasSub ("lfm2".toList) lower && hasSub ("vl".toList) lower

-- ---------------------------------------------------------------------
-- Data model (the TS type declarations at the top of AppShell.tsx)
-- ---------------------------------------------------------------------

inductive Role where
  | system
  | user
  | assistant
deriving DecidableEq, Repr

inductive MsgStatus where
  | done
  | streaming
  | stopped
  | error
deriving DecidableEq, Repr

structure ImageAttachment where
  dataUrl : Str
  name : Option Str
  mimeType : Option Str
deriving DecidableEq, Repr

structure MessageMeta where
  latencyMs : Option Nat
  promptTokens : Option Nat
  completionTokens : Option Nat
  totalTokens : Option Nat
  estTokens : Option Nat
  model : Option Str
  serverId : Option Str
deriving DecidableEq, Repr

/-- The all-undefined metadata object (`{}` spread base). -/
def MessageMeta.empty : MessageMeta :=
  ⟨none, none, none, none, none, none, none⟩

structure Message where
  id : Str
  role : Role
  content : Str
  image : Option ImageAttachment
  createdAt : Nat
  status : MsgStatus
  meta : Option MessageMeta
  error : Option Str
deriving DecidableEq, Repr

structure Conversation where
  id : Str
  title : Str
  createdAt : Nat
  updatedAt : Nat
  systemPrompt : Str
  temperature : ℚ
  maxTokens : ℚ
  modelId : Option Str
  serverId : Option Str
  messages : List Message
deriving DecidableEq, Repr

-- ---------------------------------------------------------------------
-- Frame decoding (the read/buffer/line loop inside streamChat)
-- ---------------------------------------------------------------------

/-- A top-level `usage` object captured from a decoded record
(`prompt_tokens` / `completion_tokens` / `total_tokens`, each optional). -/
structure Usage where
  promptTokens : Option Nat
  completionTokens : Option Nat
  totalTokens : Option Nat
deriving DecidableEq, Repr

/-- What the loop body reads off one successfully parsed record:
`obj?.choices?.[0]?.delta?.content` when it is a string, and the
top-level `usage` object when present and truthy. -/
structure StreamRec where
  delta : Option Str
  usage : Option Usage
deriving DecidableEq, Repr

/-- Extraction state of the loop: the delta fragments appended so far (in
arrival order) and the last captured `finalUsage`. -/
structure PumpAcc where
  fragments : List Str
  usage : Option Usage
deriving DecidableEq, Repr

def PumpAcc.empty : PumpAcc := ⟨[], none⟩

/-- The per-line payload extraction of streamChat: trim the line, require
the `data:` record marker, drop it, trim; an empty payload is skipped
(`none`). -/
def lineData (l : Str) : Option Str :=
  let trimmed := trimStr l
  if ("data:".toList).isPrefixOf trimmed then
    let d := trimStr (trimmed.drop 5)
    if d = [] then none else some d
  else none

/-- The `[DONE]` sentinel payload. -/
def doneTok : Str := "[DONE]".toList

/-- Folding one decoded payload into the accumulator: `JSON.parse` it (a
failure is skipped), append `choices[0].delta.content` when it is a
non-empty string, and capture `usage` when present. -/
def applyData (parse : Str → Option StreamRec) (acc : PumpAcc) (d : Str) : PumpAcc :=
  match parse d with
  | none => acc
  | some r =>
    let acc1 :=
      match r.delta with
      | some t => if t.length > 0 then { acc with fragments := acc.fragments ++ [t] } else acc
      | none => acc
    match r.usage with
    | some u => { acc1 with usage := some u }
    | none => acc1

/-- The inner `while ((idx = buffer.indexOf("\n")) >= 0)` loop of
streamChat.  `line` is the reversed accumulator of the characters of the
current line scanned so far; the function returns the unconsumed buffer
and the updated extraction state.  On the `[DONE]` sentinel the loop
breaks, leaving the rest of the buffer (which may contain further
complete records) unconsumed. -/
def pumpChars (parse : Str → Option StreamRec) : Str → Str → PumpAcc → (Str × PumpAcc)
  | line, [], acc => (line.reverse, acc)
  | line, c :: rest, acc =>
    if c = '\n' then
      match lineData line.reverse with
      | some d =>
        if d = doneTok then (rest, acc)
        else pumpChars parse [] rest (applyData parse acc d)
      | none => pumpChars parse [] rest acc
    else pumpChars parse (c :: line) rest acc

/-- Delivering one chunk: append it to the buffered leftover and rerun the
line loop from the start of the buffer (JS `buffer += decode(value)`). -/
def pumpChunk (parse : Str → Option StreamRec) (st : Str × PumpAcc) (chunk : Str) :
    Str × PumpAcc :=
  pumpChars parse [] (st.1 ++ chunk) st.2

/-- The outer `while (true) { read(); ... }` loop over the whole chunk
sequence, starting from an empty buffer and empty extraction state. -/
def pumpChunks (parse : Str → Option StreamRec) (chunks : List Str) : Str × PumpAcc :=
  chunks.foldl (pumpChunk parse) ([], PumpAcc.empty)

/-- Extraction result of the whole stream: when the reader reports `done`,
whatever is still buffered is discarded. -/
def streamResult (parse : Str → Option StreamRec) (chunks : List Str) : PumpAcc :=
  (pumpChunks parse chunks).2

/-- Break-detector of the line loop: does scanning this buffer (with
`line` the reversed partial-line accumulator) hit a `[DONE]` payload?
Mirrors `pumpChars`, with no dependence on the payload parser or on the
extraction state. -/
def scanBreaks (line : Str) : Str → Bool
  | [] => false
  | c :: rest =>
    if c = '\n' then
      match lineData line.reverse with
      | some d => if d = doneTok then true else scanBreaks [] rest
      | none => scanBreaks [] rest
    else scanBreaks (c :: line) rest

/-- Partial-line accumulator left by a break-free scan of the buffer. -/
def scanTail (line : Str) : Str → Str
  | [] => line
  | c :: rest =>
    if c = '\n' then scanTail [] rest
    else scanTail (c :: line) rest

-- ---------------------------------------------------------------------
-- An executable JSON reader standing in for the platform JSON.parse
-- ---------------------------------------------------------------------

inductive Json where
  | null
  | bool (b : Bool)
  | num (n : Int)
  | str (s : Str)
  | arr (xs : List Json)
  | obj (kvs : List (Str × Json))

/-- Drop leading JSON whitespace. -/
def skipWS (s : Str) : Str := s.dropWhile Char.isWhitespace

/-- Read a JSON string literal body (the opening quote already consumed),
returning the decoded characters and the rest of the input. -/
def parseStringLit : Str → Option (Str × Str)
  | [] => none
  | '"' :: rest => some ([], rest)
  | '\\' :: rest =>
    match rest with
    | [] => none
    | e :: rest2 =>
      let c := if e = 'n' then '\n' else if e = 't' then '\t' else e
      match parseStringLit rest2 with
      | some (s, r) => some (c :: s, r)
      | none => none
  | c :: rest =>
    match parseStringLit rest with
    | some (s, r) => some (c :: s, r)
    | none => none

/-- Read a run of decimal digits. -/
def parseDigits (acc : Nat) : Str → (Nat × Str)
  | [] => (acc, [])
  | c :: rest =>
    if c.isDigit then parseDigits (acc * 10 + (c.toNat - 48)) rest else (acc, c :: rest)

/-- One JSON value whose nested array elements and object member values
are read by the supplied parser `pv` (depth-stratified recursion).
Integers, strings, booleans, null, arrays and objects: the subset
`JSON.parse` and this reader agree on for every payload evaluated in
this file. -/
def parseValWith (pitems : Nat → Str → Option (List Json × Str))
    (pmembers : Nat → Str → Option (List (Str × Json) × Str)) (s : Str) :
    Option (Json × Str) :=
  match skipWS s with
  | [] => none
  | c :: rest =>
    if c = '"' then
      match parseStringLit rest with
      | some (lit, r) => some (.str lit, r)
      | none => none
    else if c = '[' then
      match skipWS rest with
      | ']' :: r => some (.arr [], r)
      | r2 =>
        match pitems r2.length r2 with
        | some (xs, r) => some (.arr xs, r)
        | none => none
    else if c = '\x7b' then
      match skipWS rest with
      | '\x7d' :: r => some (.obj [], r)
      | r2 =>
        match pmembers r2.length r2 with
        | some (kvs, r) => some (.obj kvs, r)
        | none => none
    else if c = 't' then
      if ("rue".toList).isPrefixOf rest then some (.bool true, rest.drop 3) else none
    else if c = 'f' then
      if ("alse".toList).isPrefixOf rest then some (.bool false, rest.drop 4) else none
    else if c = 'n' then
      if ("ull".toList).isPrefixOf rest then some (.null, rest.drop 3) else none
    else if c = '-' then
      match rest with
      | d :: _ =>
        if d.isDigit then
          let p := parseDigits 0 rest
          some (.num (-(p.1 : Int)), p.2)
        else none
      | [] => none
    else if c.isDigit then
      let p := parseDigits 0 (c :: rest)
      some (.num (p.1 : Int), p.2)
    else none

/-- Comma-separated JSON array items up to `]`, elements read by `pv`. -/
def parseItemsWith (pv : Str → Option (Json × Str)) : Nat → Str → Option (List Json × Str)
  | 0, _ => none
  | Nat.succ fuel, s =>
    match pv s with
    | none => none
    | some (v, r) =>
      match skipWS r with
      | ',' :: r2 =>
        match parseItemsWith pv fuel r2 with
        | some (xs, r3) => some (v :: xs, r3)
        | none => none
      | ']' :: r2 => some ([v], r2)
      | _ => none

/-- Comma-separated JSON object members up to the closing brace, member
values read by `pv`. -/
def parseMembersWith (pv : Str → Option (Json × Str)) :
    Nat → Str → Option (List (Str × Json) × Str)
  | 0, _ => none
  | Nat.succ fuel, s =>
    match skipWS s with
    | '"' :: r =>
      match parseStringLit r with
      | none => none
      | some (k, r2) =>
        match skipWS r2 with
        | ':' :: r3 =>
          match pv r3 with
          | none => none
          | some (v, r4) =>
            match skipWS r4 with
            | ',' :: r5 =>
              match parseMembersWith pv fuel r5 with
              | some (kvs, r6) => some ((k, v) :: kvs, r6)
              | none => none
            | '\x7d' :: r5 => some ([(k, v)], r5)
            | _ => none
        | _ => none
    | _ => none

/-- JSON values of nesting depth at most `d` below the top. -/
def parseValDepth : Nat → Str → Option (Json × Str)
  | 0, s =>
    parseValWith (fun _ _ => none) (fun _ _ => none) s
  | Nat.succ d, s =>
    parseValWith (parseItemsWith (parseValDepth d))
      (parseMembersWith (parseValDepth d)) s

def jLookup (k : Str) : List (Str × Json) → Option Json
  | [] => none
  | (k2, v) :: rest => if k2 = k then some v else jLookup k rest

def jGetField (j : Json) (k : Str) : Option Json :=
  match j with
  | .obj kvs => jLookup k kvs
  | _ => none

/-- JS truthiness of a JSON value. -/
def jTruthy : Json → Bool
  | .null => false
  | .bool b => b
  | .num n => !(n == 0)
  | .str s => !(s == [])
  | .arr _ => true
  | .obj _ => true

/-- A numeric field of a JSON object, as a token count. -/
def jNatField (j : Json) (k : Str) : Option Nat :=
  match jGetField j k with
  | some (.num n) => if 0 ≤ n then some n.toNat else none
  | _ => none

/-- The loop body's reads on a parsed record:
`obj?.choices?.[0]?.delta?.content` when that path ends in a string, and
`obj.usage` when present and truthy. -/
def extractRec (j : Json) : StreamRec :=
  let delta :=
    match jGetField j ("choices".toList) with
    | some (.arr (c0 :: _)) =>
      match jGetField c0 ("delta".toList) with
      | some dj =>
        match jGetField dj ("content".toList) with
        | some (.str s) => some s
        | _ => none
      | _ => none
    | _ => none
  let usage :=
    match jGetField j ("usage".toList) with
    | some u =>
      if jTruthy u then
        some (Usage.mk (jNatField u ("prompt_tokens".toList))
          (jNatField u ("completion_tokens".toList))
          (jNatField u ("total_tokens".toList)))
      else none
    | none => none
  ⟨delta, usage⟩

/-- `JSON.parse` followed by the loop body's field reads; a payload with
trailing garbage is a parse failure, as in JS. -/
def parseSSE (d : Str) : Option StreamRec :=
  match parseValDepth 8 d with
  | some (j, rest) => if skipWS rest = [] then some (extractRec j) else none
  | none => none

-- Concrete payloads used by the evaluated theorems.

/-- Wrap a member list in braces: the JSON object syntax. -/
def jObjWrap (s : Str) : Str := '\x7b' :: (s ++ ['\x7d'])

/-- The record text for a `choices[0].delta.content` fragment. -/
def deltaPayload (t : Str) : Str :=
  jObjWrap ("\"choices\":[".toList ++
    jObjWrap ("\"delta\":".toList ++ jObjWrap ("\"content\":\"".toList ++ t ++ "\"".toList)) ++
    "]".toList)

/-- The record text for a `usage.total_tokens` report. -/
def usagePayload (n : Nat) : Str :=
  jObjWrap ("\"usage\":".toList ++ jObjWrap ("\"total_tokens\":".toList ++ (Nat.repr n).toList))

/-- One server-sent-event line carrying a payload. -/
def sseLine (payload : Str) : Str := "data: ".toList ++ payload ++ ['\n']

-- ---------------------------------------------------------------------
-- Conversation-store updates of streamChat (delta, completion, catch)
-- ---------------------------------------------------------------------

/-- JS `s?.trim() || undefined`: trim, and turn an empty result into
`undefined`. -/
def optTrim (s : Option Str) : Option Str :=
  match s with
  | some t => if trimStr t = [] then none else some (trimStr t)
  | none => none

/-- JS `replace(/\s+/g, " ")` scan state: was the previous character part
of a whitespace run? -/
def collapseWSAux : Bool → Str → Str
  | _, [] => []
  | prevWS, c :: rest =>
    if c.isWhitespace then
      if prevWS then collapseWSAux true rest else ' ' :: collapseWSAux true rest
    else c :: collapseWSAux false rest

def collapseWS (s : Str) : Str := collapseWSAux false s

/-- titleFromFirstUser from AppShell.tsx. -/
def titleFromFirstUser (msgs : List Message) : Str :=
  match msgs.find? (fun m => m.role == Role.user && decide (trimStr m.content ≠ [])) with
  | none => "New chat".toList
  | some u =>
    let t := collapseWS (trimStr u.content)
    if t.length > 28 then t.take 28 ++ ['…'] else t

/-- The metadata object both finalizers build (`...m.meta`, latency,
estimated tokens, model/server fallbacks). -/
def baseMeta (t0 t1 : Nat) (content : Str) (modelId serverId : Option Str)
    (old : Option MessageMeta) : MessageMeta :=
  let o := old.getD MessageMeta.empty
  { o with
    latencyMs := some (t1 - t0),
    estTokens := some (estimateTokens content),
    model := match o.model with | some m => some m | none => optTrim modelId,
    serverId := match o.serverId with | some s => some s | none => optTrim serverId }

/-- The graceful-completion update of streamChat: finalize the target
assistant message's metadata (copying the captured usage fields over it
when a usage object was seen), set status `done`, rederive the title when
the log was empty when the cycle started. -/
def finishStream (t0 t1 : Nat) (modelId serverId : Option Str) (assistantId : Str)
    (finalUsage : Option Usage) (c : Conversation) : Conversation :=
  let msgs := c.messages.map fun m =>
    if m.id = assistantId then
      let meta0 := baseMeta t0 t1 m.content modelId serverId m.meta
      let meta :=
        match finalUsage with
        | some u =>
          { meta0 with
            promptTokens := u.promptTokens,
            completionTokens := u.completionTokens,
            totalTokens := u.totalTokens }
        | none => meta0
      { m with status := MsgStatus.done, meta := some meta }
    else m
  let title := if c.messages.length = 0 then titleFromFirstUser msgs else c.title
  { c with title := title, messages := msgs, updatedAt := t1 }

/-- The catch-block update of streamChat: classify the failure by the
exception name (`AbortError` means a local abort), keep the partial
content, finalize latency and estimated tokens, and set status `stopped`
on abort and `error` (with the message recorded) otherwise. -/
def streamCatch (errName errMsg : Str) (t0 t1 : Nat) (modelId serverId : Option Str)
    (assistantId : Str) (c : Conversation) : Conversation :=
  let stopped : Bool := errName == "AbortError".toList
  let msgs := c.messages.map fun m =>
    if m.id = assistantId then
      let meta := baseMeta t0 t1 m.content modelId serverId m.meta
      if stopped then { m with status := MsgStatus.stopped, meta := some meta }
      else { m with status := MsgStatus.error, error := some errMsg, meta := some meta }
    else m
  { c with messages := msgs, updatedAt := t1 }

/-- The per-fragment update of streamChat: append the fragment to the
target assistant message's content, keep its status `streaming`, leave
every other message alone. -/
def applyDelta (assistantId : Str) (delta : Str) (tNow : Nat) (c : Conversation) :
    Conversation :=
  { c with
    messages := c.messages.map fun m =>
      if m.id = assistantId then
        { m with content := m.content ++ delta, status := MsgStatus.streaming }
      else m,
    updatedAt := tNow }

-- ---------------------------------------------------------------------
-- Turn controller: resend (runFromUserMessage)
-- ---------------------------------------------------------------------

/-- `conv.messages.findIndex((m) => m.id === userMsgId && m.role === "user")`,
with `none` for -1. -/
def findUserIndex (userMsgId : Str) : List Message → Option Nat
  | [] => none
  | m :: rest =>
    if m.id = userMsgId ∧ m.role = Role.user then some 0
    else (findUserIndex userMsgId rest).map (· + 1)

/-- runFromUserMessage from AppShell.tsx, on the targeted conversation:
no-op while a stream is in flight or when the anchor is not found;
otherwise keep the prefix up to and including the anchor user message and
replace everything after it with one fresh assistant placeholder. -/
def runFromUserMessage (isStreaming : Bool) (freshId : Str) (tNow : Nat)
    (c : Conversation) (userMsgId : Str) : Conversation :=
  if isStreaming then c
  else
    match findUserIndex userMsgId c.messages with
    | none => c
    | some i =>
      let assistantMsg : Message :=
        { id := freshId, role := Role.assistant, content := [], image := none,
          createdAt := tNow, status := MsgStatus.streaming,
          meta := some { MessageMeta.empty with
            model := optTrim c.modelId, serverId := optTrim c.serverId },
          error := none }
      { c with messages := c.messages.take (i + 1) ++ [assistantMsg], updatedAt := tNow }

-- ---------------------------------------------------------------------
-- buildMessagesForModel
-- ---------------------------------------------------------------------

inductive ChatContentPart where
  | textPart (text : Str)
  | imagePart (url : Str)
deriving DecidableEq, Repr

inductive ModelContent where
  | text (s : Str)
  | parts (ps : List ChatContentPart)
deriving DecidableEq, Repr

structure ModelMessage where
  role : Role
  content : ModelContent
deriving DecidableEq, Repr

/-- JS truthiness of `m.image?.dataUrl`. -/
def imagePresent (m : Message) : Bool :=
  match m.image with
  | some img => !(img.dataUrl == [])
  | none => false

/-- The per-message translation of buildMessagesForModel: a user message
with an image becomes a multi-part payload when the model supports
vision, with the `<image>` marker prepended for models that require it;
everything else keeps its plain string content. -/
def translateMsg (supportsVision needsImageTok : Bool) (m : Message) : ModelMessage :=
  if supportsVision && (m.role == Role.user) && imagePresent m then
    match m.image with
    | some img =>
      let text0 := m.content
      let text :=
        if needsImageTok && !(hasSub ("<image>".toList) text0) then
          if (trimStr text0).length > 0 then "<image>\n".toList ++ text0
          else "<image>".toList
        else text0
      let parts :=
        (if (trimStr text).length > 0 then [ChatContentPart.textPart text] else []) ++
          [ChatContentPart.imagePart img.dataUrl]
      ⟨m.role, ModelContent.parts parts⟩
    | none => ⟨m.role, ModelContent.text m.content⟩
  else ⟨m.role, ModelContent.text m.content⟩

/-- The message loop of buildMessagesForModel: system-role log entries
are skipped; after pushing the message whose id is the anchor the loop
breaks. -/
def buildLoop (supportsVision needsImageTok : Bool) (upto : Option Str) :
    List Message → List ModelMessage
  | [] => []
  | m :: rest =>
    if m.role = Role.system then buildLoop supportsVision needsImageTok upto rest
    else
      let mm := translateMsg supportsVision needsImageTok m
      if upto = some m.id then [mm]
      else mm :: buildLoop supportsVision needsImageTok upto rest

/-- buildMessagesForModel from AppShell.tsx. -/
def buildMessagesForModel (c : Conversation) (supportsVision : Bool)
    (uptoMsgId : Option Str) : List ModelMessage :=
  let needsImageTok := requiresImageToken (c.modelId.getD [])
  (if (trimStr c.systemPrompt).length > 0 then
    [ModelMessage.mk Role.system (ModelContent.text c.systemPrompt)]
  else []) ++ buildLoop supportsVision needsImageTok uptoMsgId c.messages

/-- Specification-shaped view of the loop: the log prefix ending at the
first non-system message carrying the anchor id (the whole log when the
anchor is absent). -/
def takeToAnchor (upto : Option Str) : List Message → List Message
  | [] => []
  | m :: rest =>
    if m.role ≠ Role.system ∧ upto = some m.id then [m]
    else m :: takeToAnchor upto rest

-- ---------------------------------------------------------------------
-- Export / import (exportAll, onImportFile)
-- ---------------------------------------------------------------------

/-- A conversation as re-read from an imported JSON file: each optional
field is `none` when it is absent or not of the expected type.  A raw
`role`/`status` is `none` when it is not one of the recognized literal
strings. -/
structure RawImage where
  dataUrl : Option Str
  name : Option Str
  mimeType : Option Str
deriving DecidableEq, Repr

structure RawMsg where
  id : Option Str
  role : Option Role
  content : Option Str
  image : Option RawImage
  createdAt : Option Nat
  status : Option MsgStatus
  meta : Option MessageMeta
  error : Option Str
deriving DecidableEq, Repr

structure RawConv where
  id : Str
  title : Option Str
  createdAt : Option Nat
  updatedAt : Option Nat
  systemPrompt : Option Str
  temperature : Option ℚ
  maxTokens : Option ℚ
  modelId : Option Str
  serverId : Option Str
  messages : Option (List RawMsg)
deriving DecidableEq, Repr

structure ExportPayload where
  version : Nat
  app : Str
  exportedAt : Nat
  activeId : Option Str
  conversations : List Conversation
deriving DecidableEq, Repr

/-- exportAll from AppShell.tsx (the JSON download of the whole store). -/
def exportAll (t : Nat) (activeId : Option Str) (conversations : List Conversation) :
    ExportPayload :=
  ⟨1, "vllm_chat".toList, t, activeId, conversations⟩

/-- Serialization then re-parsing of one message: every field present
with its typed value (`JSON.stringify`/`JSON.parse` round off nothing on
this data). -/
def toRawMsg (m : Message) : RawMsg :=
  ⟨some m.id, some m.role, some m.content,
    (match m.image with
     | some img => some ⟨some img.dataUrl, img.name, img.mimeType⟩
     | none => none),
    some m.createdAt, some m.status, m.meta, m.error⟩

/-- Serialization then re-parsing of one conversation. -/
def toRawConv (c : Conversation) : RawConv :=
  ⟨c.id, some c.title, some c.createdAt, some c.updatedAt, some c.systemPrompt,
    some c.temperature, some c.maxTokens, c.modelId, c.serverId,
    some (c.messages.map toRawMsg)⟩

/-- `Array.prototype.map` with the element index, made explicit because
each mapped element may draw a fresh generated id. -/
def mapWithIdx (f : Nat → α → β) : Nat → List α → List β
  | _, [] => []
  | i, a :: rest => f i a :: mapWithIdx f (i + 1) rest

/-- titleFromFirstUser as applied by onImportFile to the raw (not yet
sanitized) message array.  The predicate
`m.role === "user" && m.content.trim().length > 0` evaluates
`m.content.trim()` as soon as the role test passes, so a user-role raw
message whose content is absent or not a string throws a `TypeError`
(modelled as `none`); messages with any other role are skipped without
touching their content, and a user-role message with an empty trimmed
string content is skipped too. -/
def titleFromFirstUserRaw : List RawMsg → Option Str
  | [] => some ("New chat".toList)
  | rm :: rest =>
    if rm.role = some Role.user then
      match rm.content with
      | some s =>
        if trimStr s ≠ [] then
          let t := collapseWS (trimStr s)
          some (if t.length > 28 then t.take 28 ++ ['…'] else t)
        else titleFromFirstUserRaw rest
      | none => none
    else titleFromFirstUserRaw rest

/-- The title of an imported conversation:
`typeof c.title === "string" ? c.title : titleFromFirstUser(msgs)`; when
the title is not a string, the derivation on the raw messages may
throw. -/
def importTitle (rc : RawConv) : Option Str :=
  match rc.title with
  | some t => some t
  | none => titleFromFirstUserRaw (rc.messages.getD [])

/-- The per-message sanitization of onImportFile: defaults for missing or
mistyped fields; a fresh id only when the raw id is not a string. -/
def sanitizeMsg (freshId : Str) (tNow : Nat) (rm : RawMsg) : Message :=
  { id := rm.id.getD freshId,
    role := rm.role.getD Role.user,
    content := rm.content.getD [],
    image :=
      match rm.image with
      | some ri =>
        match ri.dataUrl with
        | some d => some ⟨d, ri.name, ri.mimeType⟩
        | none => none
      | none => none,
    createdAt := rm.createdAt.getD tNow,
    status := rm.status.getD MsgStatus.done,
    meta := rm.meta,
    error := rm.error }

/-- The per-conversation sanitization of onImportFile: a fresh id exactly
on collision with a pre-existing id, defaults for missing or mistyped
optional fields, temperature clamped to [0,2] and maxTokens to
[16,4096].  `none` models the `TypeError` thrown while deriving a
missing title, which escapes the handler. -/
def sanitizeConv (existingIds : List Str) (freshConvId : Str) (freshMsgId : Nat → Str)
    (tNow : Nat) (rc : RawConv) : Option Conversation :=
  match importTitle rc with
  | none => none
  | some title =>
    some
      { id := if rc.id ∈ existingIds then freshConvId else rc.id,
        createdAt := rc.createdAt.getD tNow,
        updatedAt := rc.updatedAt.getD tNow,
        title := title,
        systemPrompt := rc.systemPrompt.getD ("You are a helpful assistant.".toList),
        temperature := match rc.temperature with | some x => clamp x 0 2 | none => 0.7,
        maxTokens := match rc.maxTokens with | some x => clamp x 16 4096 | none => 512,
        modelId := some (rc.modelId.getD []),
        serverId := some (rc.serverId.getD []),
        messages := mapWithIdx (fun i rm => sanitizeMsg (freshMsgId i) tNow rm) 0
          (rc.messages.getD []) }

/-- `Array.prototype.map` with the element index over a fallible
per-element body: the first thrown `TypeError` (a `none`) aborts the
whole map. -/
def mapWithIdxOpt (f : Nat → α → Option β) : Nat → List α → Option (List β)
  | _, [] => some []
  | i, a :: rest =>
    match f i a with
    | none => none
    | some b =>
      match mapWithIdxOpt f (i + 1) rest with
      | none => none
      | some bs => some (b :: bs)

/-- onImportFile from AppShell.tsx, after the file has been read and
parsed: an empty conversation array aborts; otherwise each imported
conversation is sanitized against the pre-existing ids and the sanitized
list is prepended to the store.  When sanitization throws (a missing
title whose derivation hits a user-role raw message without string
content), the exception escapes the handler before `setConversations`
runs and nothing at all is imported. -/
def onImportFile (store : List Conversation) (freshConvId : Nat → Str)
    (freshMsgId : Nat → Nat → Str) (tNow : Nat) (imported : List RawConv) :
    List Conversation :=
  if imported.isEmpty then store
  else
    match mapWithIdxOpt
        (fun i rc =>
          sanitizeConv (store.map Conversation.id) (freshConvId i) (freshMsgId i) tNow rc)
        0 imported with
    | none => store
    | some sanitized => sanitized ++ store

/-- The `totalTokens` recorded on a message, through the optional
metadata. -/
def msgTotalTokens (m : Message) : Option Nat :=
  match m.meta with
  | some mm => mm.totalTokens
  | none => none

/-- The `estTokens` recorded on a message. -/
def msgEstTokens (m : Message) : Option Nat :=
  match m.meta with
  | some mm => mm.estTokens
  | none => none

/-- The `latencyMs` recorded on a message. -/
def msgLatencyMs (m : Message) : Option Nat :=
  match m.meta with
  | some mm => mm.latencyMs
  | none => none

/-- The identity-relevant projection of a conversation for the
export/import round trip: its id and its messages' ids, contents and
statuses. -/
def convKey (c : Conversation) : Str × List (Str × Str × MsgStatus) :=
  (c.id, c.messages.map (fun m => (m.id, m.content, m.status)))

/-- A three-message sample log (user, assistant, user) used to evaluate
the resend theorem. -/
def sampleResendConv : Conversation :=
  Conversation.mk ("c1".toList) ("t".toList) 0 0 [] (7 / 10) 512 none none
    [Message.mk ("u1".toList) Role.user ("Hi".toList) none 0 MsgStatus.done none none,
      Message.mk ("a1".toList) Role.assistant ("ans".toList) none 1 MsgStatus.done none none,
      Message.mk ("u2".toList) Role.user ("More".toList) none 2 MsgStatus.done none none]

/-- A sample conversation with a system prompt and one image-bearing user
message, used to evaluate the message-building theorem. -/
def sampleVisionConv : Conversation :=
  Conversation.mk ("c2".toList) ("t".toList) 0 0 ("sys".toList) (7 / 10) 512 none none
    [Message.mk ("u1".toList) Role.user ("Hi".toList)
      (some (ImageAttachment.mk ("img://1".toList) none none)) 0 MsgStatus.done none none]

theorem pumpChars_append_noNL (p : Str → Option StreamRec) (pre : Str)
    (hp : '\n' ∉ pre) :
    ∀ (line rest : Str) (acc : PumpAcc),
      pumpChars p line (pre ++ rest) acc = pumpChars p (pre.reverse ++ line) rest acc := by
  induction pre with
  | nil => intro line rest acc; simp
  | cons c cs ih =>
    intro line rest acc
    have hc : ¬(c = '\n') := fun h => hp (by simp [h])
    have hcs : '\n' ∉ cs := fun h => hp (List.mem_cons_of_mem c h)
    simp only [List.cons_append, pumpChars, if_neg hc, List.append_eq]
    rw [ih hcs (c :: line) rest acc]
    simp

theorem scanBreaks_append_noNL (pre : Str) (hp : '\n' ∉ pre) :
    ∀ (line rest : Str),
      scanBreaks line (pre ++ rest) = scanBreaks (pre.reverse ++ line) rest := by
  induction pre with
  | nil => intro line rest; simp
  | cons c cs ih =>
    intro line rest
    have hc : ¬(c = '\n') := fun h => hp (by simp [h])
    have hcs : '\n' ∉ cs := fun h => hp (List.mem_cons_of_mem c h)
    simp only [List.cons_append, scanBreaks, if_neg hc, List.append_eq]
    rw [ih hcs (c :: line) rest]
    simp

theorem scanBreaks_true_append (t : Str) :
    ∀ (s line : Str), scanBreaks line s = true → scanBreaks line (s ++ t) = true := by
  intro s
  induction s with
  | nil => intro line h; rw [show scanBreaks line [] = false from rfl] at h; simp at h
  | cons c rest ih =>
    intro line h
    by_cases hc : c = '\n'
    · subst hc
      simp only [scanBreaks, if_pos rfl] at h ⊢
      cases hd : lineData line.reverse with
      | none => simp [hd] at h ⊢; exact ih [] h
      | some d =>
        by_cases hdd : d = doneTok
        · simp [hd, hdd]
        · simp [hd, hdd] at h ⊢; exact ih [] h
    · simp only [scanBreaks, if_neg hc] at h ⊢
      exact ih (c :: line) h

theorem scanBreaks_false_of_append {s t line : Str}
    (h : scanBreaks line (s ++ t) = false) : scanBreaks line s = false := by
  by_contra hs
  have := scanBreaks_true_append t s line (by revert hs; cases scanBreaks line s <;> simp)
  rw [this] at h
  simp at h

theorem scanTail_noNL : ∀ (s line : Str), '\n' ∉ line → '\n' ∉ scanTail line s := by
  intro s
  induction s with
  | nil => intro line h; simpa [scanTail] using h
  | cons c rest ih =>
    intro line h
    by_cases hc : c = '\n'
    · subst hc; simp only [scanTail, if_pos rfl]; exact ih [] (by simp)
    · simp only [scanTail, if_neg hc]
      exact ih (c :: line) (by
        intro hm
        rcases List.mem_cons.mp hm with h1 | h2
        · exact hc h1.symm
        · exact h h2)

theorem pumpChars_fst_of_noBreak (p : Str → Option StreamRec) :
    ∀ (s line : Str) (acc : PumpAcc), scanBreaks line s = false →
      (pumpChars p line s acc).1 = (scanTail line s).reverse := by
  intro s
  induction s with
  | nil => intro line acc _; simp [pumpChars, scanTail]
  | cons c rest ih =>
    intro line acc h
    by_cases hc : c = '\n'
    · subst hc
      simp only [pumpChars, scanBreaks, if_pos rfl, scanTail] at h ⊢
      cases hd : lineData line.reverse with
      | none => simp [hd] at h ⊢; exact ih [] _ h
      | some d =>
        by_cases hdd : d = doneTok
        · simp [hd, hdd] at h
        · simp [hd, hdd] at h ⊢; exact ih [] _ h
    · simp only [pumpChars, scanBreaks, if_neg hc, scanTail] at h ⊢
      exact ih (c :: line) _ h

theorem pumpChars_append_of_noBreak (p : Str → Option StreamRec) (t : Str) :
    ∀ (s line : Str) (acc : PumpAcc), scanBreaks line s = false →
      pumpChars p line (s ++ t) acc =
        pumpChars p (scanTail line s) t (pumpChars p line s acc).2 := by
  intro s
  induction s with
  | nil => intro line acc _; simp [pumpChars, scanTail]
  | cons c rest ih =>
    intro line acc h
    by_cases hc : c = '\n'
    · subst hc
      simp only [List.cons_append, pumpChars, scanBreaks, if_pos rfl, scanTail] at h ⊢
      cases hd : lineData line.reverse with
      | none => simp [hd] at h ⊢; exact ih [] _ h
      | some d =>
        by_cases hdd : d = doneTok
        · simp [hd, hdd] at h
        · simp [hd, hdd] at h ⊢; exact ih [] _ h
    · simp only [List.cons_append, pumpChars, scanBreaks, if_neg hc, scanTail] at h ⊢
      exact ih (c :: line) _ h

theorem scanBreaks_append_of_noBreak (t : Str) :
    ∀ (s line : Str), scanBreaks line s = false →
      scanBreaks line (s ++ t) = scanBreaks (scanTail line s) t := by
  intro s
  induction s with
  | nil => intro line _; simp [scanTail]
  | cons c rest ih =>
    intro line h
    by_cases hc : c = '\n'
    · subst hc
      simp only [List.cons_append, scanBreaks, if_pos rfl, scanTail] at h ⊢
      cases hd : lineData line.reverse with
      | none => simp [hd] at h ⊢; exact ih [] h
      | some d =>
        by_cases hdd : d = doneTok
        · simp [hd, hdd] at h
        · simp [hd, hdd] at h ⊢; exact ih [] h
    · simp only [List.cons_append, scanBreaks, if_neg hc, scanTail] at h ⊢
      exact ih (c :: line) h

theorem pumpChunks_foldl_eq (p : Str → Option StreamRec) :
    ∀ (cs : List Str) (buf : Str) (acc : PumpAcc), '\n' ∉ buf →
      scanBreaks [] (buf ++ cs.flatten) = false →
      List.foldl (pumpChunk p) (buf, acc) cs = pumpChars p [] (buf ++ cs.flatten) acc := by
  intro cs
  induction cs with
  | nil =>
    intro buf acc hb _
    rw [List.flatten_nil, List.append_nil, List.foldl_nil,
      show buf = buf ++ [] by simp, pumpChars_append_noNL p buf hb [] [] acc]
    simp [pumpChars]
  | cons c cs' ih =>
    intro buf acc hb h
    rw [List.flatten_cons, ← List.append_assoc] at h
    have h3 : scanBreaks [] (buf ++ c) = false := scanBreaks_false_of_append h
    have hT : '\n' ∉ scanTail ([] : Str) (buf ++ c) := scanTail_noNL _ [] (by simp)
    have hr1 : (pumpChars p [] (buf ++ c) acc).1 = (scanTail [] (buf ++ c)).reverse :=
      pumpChars_fst_of_noBreak p (buf ++ c) [] acc h3
    have hTrev : '\n' ∉ (scanTail ([] : Str) (buf ++ c)).reverse := by
      intro hm; exact hT (List.mem_reverse.mp hm)
    have hcont : scanBreaks (scanTail [] (buf ++ c)) cs'.flatten = false := by
      rw [← scanBreaks_append_of_noBreak cs'.flatten (buf ++ c) [] h3]
      exact h
    have hnext : scanBreaks [] ((pumpChars p [] (buf ++ c) acc).1 ++ cs'.flatten) = false := by
      rw [hr1, scanBreaks_append_noNL _ hTrev [] cs'.flatten]
      simpa using hcont
    rw [List.foldl_cons]
    have hfold :
        List.foldl (pumpChunk p) (pumpChunk p (buf, acc) c) cs' =
          List.foldl (pumpChunk p)
            ((pumpChars p [] (buf ++ c) acc).1, (pumpChars p [] (buf ++ c) acc).2) cs' := by
      simp [pumpChunk]
    rw [hfold, ih _ _ (hr1 ▸ hTrev) hnext]
    rw [List.flatten_cons, ← List.append_assoc,
      pumpChars_append_of_noBreak p cs'.flatten (buf ++ c) [] acc h3]
    rw [hr1, pumpChars_append_noNL p _ hTrev [] cs'.flatten]
    simp

/-- C1 (amended): chunking-invariance of the stream assembler, for every
byte sequence in which no complete line decodes to the `[DONE]` sentinel
(`scanBreaks [] chunks.flatten = false`): for every partition of the bytes
into chunks, the extracted delta fragments (in order, hence their
concatenation) and the final captured usage object equal those obtained
when the same bytes arrive as one single chunk.  Without the no-sentinel
hypothesis this fails: see the counterexample, where bytes buffered
behind a `[DONE]` record are processed exactly when a further chunk
arrives. -/
theorem streamResult_chunking_invariant (p : Str → Option StreamRec)
    (chunks : List Str) (h : scanBreaks [] chunks.flatten = false) :
    streamResult p chunks = streamResult p [chunks.flatten] := by
  unfold streamResult pumpChunks
  rw [pumpChunks_foldl_eq p chunks [] PumpAcc.empty (by simp) (by simpa using h)]
  simp [pumpChunk]

/-- C2 (amended): when the line loop reaches a payload equal to the
literal sentinel `[DONE]`, it stops scanning at once: the fragments and
captured usage are left exactly as they were, and all bytes after the
sentinel line remain unconsumed in the buffer.  (They are dropped if the
stream ends there, but — contrary to the original claim — they are
processed normally if any further chunk arrives.) -/
theorem pumpChars_done_stops (p : Str → Option StreamRec) (acc : PumpAcc)
    (rest : Str) :
    pumpChars p [] ("data: [DONE]\n".toList ++ rest) acc = (rest, acc) := rfl

/-- C1 (counterexample): chunking-invariance fails as stated.  The bytes
`data: [DONE]\n` followed by a complete delta record, delivered as one
chunk, extract nothing (the sentinel breaks the line loop and the stream
ends with the record still buffered); delivered as two chunks, the second
chunk's arrival restarts the line loop over the buffered record and the
fragment `X` is extracted. -/
theorem streamResult_chunking_dependent :
    streamResult parseSSE
        ["data: [DONE]\n".toList, sseLine (deltaPayload ("X".toList))] ≠
      streamResult parseSSE
        [(["data: [DONE]\n".toList, sseLine (deltaPayload ("X".toList))]).flatten] := by
  decide

/-- C1 (witness): a sentinel-free stream split mid-record extracts the
same fragments and usage as the single-chunk delivery, namely the
fragment `Hel` and total_tokens 5. -/
theorem streamResult_chunking_invariant_witness :
    scanBreaks []
        ([(sseLine (deltaPayload ("Hel".toList)) ++ sseLine (usagePayload 5)).take 9,
          (sseLine (deltaPayload ("Hel".toList)) ++ sseLine (usagePayload 5)).drop 9]).flatten
      = false ∧
    streamResult parseSSE
        [(sseLine (deltaPayload ("Hel".toList)) ++ sseLine (usagePayload 5)).take 9,
          (sseLine (deltaPayload ("Hel".toList)) ++ sseLine (usagePayload 5)).drop 9] =
      streamResult parseSSE
        [([(sseLine (deltaPayload ("Hel".toList)) ++ sseLine (usagePayload 5)).take 9,
          (sseLine (deltaPayload ("Hel".toList)) ++ sseLine (usagePayload 5)).drop 9]).flatten] ∧
    (streamResult parseSSE
        [(sseLine (deltaPayload ("Hel".toList)) ++ sseLine (usagePayload 5)).take 9,
          (sseLine (deltaPayload ("Hel".toList)) ++ sseLine (usagePayload 5)).drop 9]).fragments
      = ["Hel".toList] ∧
    (streamResult parseSSE
        [(sseLine (deltaPayload ("Hel".toList)) ++ sseLine (usagePayload 5)).take 9,
          (sseLine (deltaPayload ("Hel".toList)) ++ sseLine (usagePayload 5)).drop 9]).usage
      = some ⟨none, none, some 5⟩ :=
  ⟨rfl, streamResult_chunking_invariant parseSSE _ rfl, rfl, rfl⟩

/-- C2 (counterexample): the `[DONE]` sentinel does not stop processing
for good.  In the first chunk the sentinel precedes a complete `X`
record, and nothing is extracted while the stream stays idle (second
conjunct); but when a further chunk carrying a `Y` record arrives, both
the record that had been sitting in the line buffer and the new record
are appended (first conjunct), contradicting the claim that no later
record causes any further content append. -/
theorem done_sentinel_processing_resumes :
    (streamResult parseSSE
        ["data: [DONE]\n".toList ++ sseLine (deltaPayload ("X".toList)),
          sseLine (deltaPayload ("Y".toList))]).fragments
      = ["X".toList, "Y".toList] ∧
    (streamResult parseSSE
        ["data: [DONE]\n".toList ++ sseLine (deltaPayload ("X".toList))]).fragments
      = [] :=
  ⟨rfl, rfl⟩

/-- C5: for the decoded record sequence
`delta "Hel"`, `delta "lo"`, `usage total_tokens 5`, `[DONE]`, the
pipeline (frame decoding, per-fragment appends, completion finalization)
leaves the assistant message with content `Hello` and recorded
totalTokens 5; and a usage object fully replaces a previously captured
one (last conjunct: 5 then 7 ends as 7 with the other fields from the
last object). -/
theorem delta_pipeline_hello_usage :
    (((streamResult parseSSE
          [sseLine (deltaPayload ("Hel".toList)) ++ sseLine (deltaPayload ("lo".toList)) ++
            sseLine (usagePayload 5) ++ "data: [DONE]\n".toList]).fragments.foldl
        (fun cv f => applyDelta ("a1".toList) f 50 cv)
        (Conversation.mk ("c1".toList) ("New chat".toList) 0 0 [] (7 / 10) 512 none none
          [Message.mk ("u1".toList) Role.user ("Hi".toList) none 0 MsgStatus.done none none,
            Message.mk ("a1".toList) Role.assistant [] none 0 MsgStatus.streaming
              (some MessageMeta.empty) none])
      |> finishStream 0 100 none none ("a1".toList)
          (streamResult parseSSE
            [sseLine (deltaPayload ("Hel".toList)) ++ sseLine (deltaPayload ("lo".toList)) ++
              sseLine (usagePayload 5) ++ "data: [DONE]\n".toList]).usage).messages.map
        (fun m => (m.content, msgTotalTokens m, m.status)))
      = [("Hi".toList, none, MsgStatus.done),
          ("Hello".toList, some 5, MsgStatus.done)] ∧
    (streamResult parseSSE
        [sseLine (usagePayload 5) ++ sseLine (usagePayload 7)]).usage
      = some ⟨none, none, some 7⟩ :=
  ⟨rfl, rfl⟩

theorem ceil_div_four (n : Nat) : ((n + 3) / 4 : Nat) = Int.toNat ⌈(n : ℚ) / 4⌉ := by
  have h1 : n ≤ 4 * ((n + 3) / 4) := by omega
  have h2 : 4 * ((n + 3) / 4) ≤ n + 3 := by omega
  have hceil : ⌈(n : ℚ) / 4⌉ = (((n + 3) / 4 : Nat) : ℤ) := by
    apply le_antisymm
    · apply Int.ceil_le.mpr
      rw [div_le_iff₀ (by norm_num : (0 : ℚ) < 4)]
      have : (n : ℚ) ≤ (((n + 3) / 4 : Nat) : ℚ) * 4 := by
        rw [show (4 : ℚ) = ((4 : Nat) : ℚ) by norm_num, ← Nat.cast_mul]
        exact_mod_cast by omega
      exact this
    · have hlt : ((((n + 3) / 4 : Nat) : ℤ) - 1) < ⌈(n : ℚ) / 4⌉ := by
        rw [Int.lt_ceil, lt_div_iff₀ (by norm_num : (0 : ℚ) < 4)]
        have h4 : (4 : ℚ) * (((n + 3) / 4 : Nat) : ℚ) ≤ (n : ℚ) + 3 := by
          exact_mod_cast h2
        rw [Int.cast_sub, Int.cast_one, Int.cast_natCast]
        linarith
      omega
  rw [hceil, Int.toNat_natCast]

/-- C3: when a stream ends with a local abort (`AbortError`), the target
assistant message keeps exactly the partial content accumulated so far,
its status becomes `stopped` (never `error`), and its latency and
estimated-token metadata are still finalized from that partial content;
every message with a different id is untouched. -/
theorem streamCatch_abort_stopped (errName errMsg : Str) (t0 t1 : Nat)
    (modelId serverId : Option Str) (aid : Str) (c : Conversation)
    (habort : errName = "AbortError".toList) :
    ∀ (i : Nat) (m : Message), c.messages[i]? = some m →
      (m.id = aid →
        (streamCatch errName errMsg t0 t1 modelId serverId aid c).messages[i]? =
          some { m with
            status := MsgStatus.stopped
            meta := some (baseMeta t0 t1 m.content modelId serverId m.meta) } ∧
        msgEstTokens { m with
            status := MsgStatus.stopped
            meta := some (baseMeta t0 t1 m.content modelId serverId m.meta) } =
          some (estimateTokens m.content) ∧
        msgLatencyMs { m with
            status := MsgStatus.stopped
            meta := some (baseMeta t0 t1 m.content modelId serverId m.meta) } =
          some (t1 - t0) ∧
        MsgStatus.stopped ≠ MsgStatus.error) ∧
      (m.id ≠ aid →
        (streamCatch errName errMsg t0 t1 modelId serverId aid c).messages[i]? = some m) := by
  intro i m hm
  subst habort
  constructor
  · intro hid
    refine ⟨?_, rfl, rfl, by decide⟩
    simp [streamCatch, hm, hid]
  · intro hid
    simp [streamCatch, hm, hid]

/-- C3 (witness): aborting with one buffered character of content leaves
that character, status `stopped`, latency 7 and estimate 1 on the
assistant message, and the user message untouched. -/
theorem streamCatch_abort_stopped_witness :
    (streamCatch ("AbortError".toList) ("cancelled".toList) 3 10 none none ("a1".toList)
        (Conversation.mk ("c1".toList) ("t".toList) 0 0 [] (7 / 10) 512 none none
          [Message.mk ("u1".toList) Role.user ("Hi".toList) none 0 MsgStatus.done none none,
            Message.mk ("a1".toList) Role.assistant ("H".toList) none 0 MsgStatus.streaming
              none none])).messages[1]? =
      some (Message.mk ("a1".toList) Role.assistant ("H".toList) none 0 MsgStatus.stopped
        (some (MessageMeta.mk (some 7) none none none (some 1) none none)) none) ∧
    (streamCatch ("AbortError".toList) ("cancelled".toList) 3 10 none none ("a1".toList)
        (Conversation.mk ("c1".toList) ("t".toList) 0 0 [] (7 / 10) 512 none none
          [Message.mk ("u1".toList) Role.user ("Hi".toList) none 0 MsgStatus.done none none,
            Message.mk ("a1".toList) Role.assistant ("H".toList) none 0 MsgStatus.streaming
              none none])).messages[0]? =
      some (Message.mk ("u1".toList) Role.user ("Hi".toList) none 0 MsgStatus.done none none) := by
  constructor
  · have h := (streamCatch_abort_stopped ("AbortError".toList) ("cancelled".toList) 3 10
      none none ("a1".toList)
      (Conversation.mk ("c1".toList) ("t".toList) 0 0 [] (7 / 10) 512 none none
        [Message.mk ("u1".toList) Role.user ("Hi".toList) none 0 MsgStatus.done none none,
          Message.mk ("a1".toList) Role.assistant ("H".toList) none 0 MsgStatus.streaming
            none none]) rfl 1
      (Message.mk ("a1".toList) Role.assistant ("H".toList) none 0 MsgStatus.streaming
        none none) rfl).1 rfl
    exact h.1.trans (by rfl)
  · exact (streamCatch_abort_stopped ("AbortError".toList) ("cancelled".toList) 3 10
      none none ("a1".toList)
      (Conversation.mk ("c1".toList) ("t".toList) 0 0 [] (7 / 10) 512 none none
        [Message.mk ("u1".toList) Role.user ("Hi".toList) none 0 MsgStatus.done none none,
          Message.mk ("a1".toList) Role.assistant ("H".toList) none 0 MsgStatus.streaming
            none none]) rfl 0
      (Message.mk ("u1".toList) Role.user ("Hi".toList) none 0 MsgStatus.done none none)
      rfl).2 (by decide)

/-- C6 (amended): when a stream completes gracefully without the server
ever supplying a usage object, the finalized assistant message's
estimated token count is `max 1 ⌈length / 4⌉` of its accumulated content
— not the bare ceiling: empty content is estimated as 1 token, see the
counterexample. -/
theorem finishStream_estimate_no_usage (t0 t1 : Nat) (modelId serverId : Option Str)
    (aid : Str) (c : Conversation) (i : Nat) (m : Message)
    (hm : c.messages[i]? = some m) (hid : m.id = aid) :
    (finishStream t0 t1 modelId serverId aid none c).messages[i]? =
      some { m with
        status := MsgStatus.done
        meta := some (baseMeta t0 t1 m.content modelId serverId m.meta) } ∧
    msgEstTokens { m with
        status := MsgStatus.done
        meta := some (baseMeta t0 t1 m.content modelId serverId m.meta) } =
      some (max 1 (Int.toNat ⌈(m.content.length : ℚ) / 4⌉)) := by
  constructor
  · simp [finishStream, hm, hid]
  · simp [msgEstTokens, baseMeta, estimateTokens, ceil_div_four]

/-- C6 (witness): a stream with content of 5 characters and no usage is
estimated at `max 1 ⌈5/4⌉ = 2` tokens. -/
theorem finishStream_estimate_no_usage_witness :
    (finishStream 0 9 none none ("a1".toList)
        none
        (Conversation.mk ("c1".toList) ("t".toList) 0 0 [] (7 / 10) 512 none none
          [Message.mk ("a1".toList) Role.assistant ("Hello".toList) none 0
            MsgStatus.streaming none none])).messages[0]? =
      some { Message.mk ("a1".toList) Role.assistant ("Hello".toList) none 0
          MsgStatus.streaming none none with
        status := MsgStatus.done
        meta := some (baseMeta 0 9 ("Hello".toList) none none none) } ∧
    msgEstTokens { Message.mk ("a1".toList) Role.assistant ("Hello".toList) none 0
        MsgStatus.streaming none none with
      status := MsgStatus.done
      meta := some (baseMeta 0 9 ("Hello".toList) none none none) } =
      some (max 1 (Int.toNat ⌈((("Hello".toList).length : ℚ)) / 4⌉)) :=
  finishStream_estimate_no_usage 0 9 none none ("a1".toList)
    (Conversation.mk ("c1".toList) ("t".toList) 0 0 [] (7 / 10) 512 none none
      [Message.mk ("a1".toList) Role.assistant ("Hello".toList) none 0
        MsgStatus.streaming none none]) 0
    (Message.mk ("a1".toList) Role.assistant ("Hello".toList) none 0
      MsgStatus.streaming none none) rfl rfl

/-- C6 (counterexample): the claim's formula `⌈length / 4⌉` fails on
empty content: the code records an estimate of 1 token (the floor of
`Math.max(1, ...)`), while `⌈0 / 4⌉ = 0`. -/
theorem finishStream_estimate_empty_cex :
    (finishStream 0 9 none none ("a1".toList) none
        (Conversation.mk ("c1".toList) ("t".toList) 0 0 [] (7 / 10) 512 none none
          [Message.mk ("a1".toList) Role.assistant [] none 0 MsgStatus.streaming
            none none])).messages.map msgEstTokens = [some 1] ∧
    Int.toNat ⌈((([] : Str).length : ℚ)) / 4⌉ = 0 ∧ (1 : Nat) ≠ 0 := by
  refine ⟨rfl, ?_, by decide⟩
  norm_num

/-- C8: each applied delta is a frame-respecting update: the message list
keeps its length and order; the target message (matched by id) gets
exactly the fragment appended to its content and status `streaming`,
every other field and every other message unchanged; and folding a list
of fragments appends their concatenation in arrival order. -/
theorem applyDelta_frame (aid : Str) (delta : Str) (t : Nat) (c : Conversation) :
    (applyDelta aid delta t c).messages.length = c.messages.length ∧
    (∀ (i : Nat) (m : Message), c.messages[i]? = some m →
      (m.id = aid →
        (applyDelta aid delta t c).messages[i]? =
          some { m with
            content := m.content ++ delta
            status := MsgStatus.streaming }) ∧
      (m.id ≠ aid → (applyDelta aid delta t c).messages[i]? = some m)) ∧
    (∀ (ds : List Str) (i : Nat) (m : Message), c.messages[i]? = some m → m.id = aid →
      (ds.foldl (fun cv f => applyDelta aid f t cv) c).messages[i]? =
        some { m with
          content := m.content ++ ds.flatten
          status := if ds.isEmpty then m.status else MsgStatus.streaming }) := by
  refine ⟨by simp [applyDelta], ?_, ?_⟩
  · intro i m hm
    constructor
    · intro hid; simp [applyDelta, hm, hid]
    · intro hid; simp [applyDelta, hm, hid]
  · intro ds
    induction ds generalizing c with
    | nil => intro i m hm hid; simpa using hm
    | cons d ds ih =>
      intro i m hm hid
      have step : (applyDelta aid d t c).messages[i]? =
          some { m with
            content := m.content ++ d
            status := MsgStatus.streaming } := by
        simp [applyDelta, hm, hid]
      have := ih (applyDelta aid d t c) i
        { m with
          content := m.content ++ d
          status := MsgStatus.streaming } step hid
      rw [List.foldl_cons, this]
      simp [List.append_assoc]

/-- C8 (witness): applying the fragments `He`, `llo` to a two-message
conversation appends `Hello` to the assistant message in arrival order
and leaves the user message untouched. -/
theorem applyDelta_frame_witness :
    ((["He".toList, "llo".toList].foldl
        (fun cv f => applyDelta ("a1".toList) f 5 cv)
        (Conversation.mk ("c1".toList) ("t".toList) 0 0 [] (7 / 10) 512 none none
          [Message.mk ("u1".toList) Role.user ("Hi".toList) none 0 MsgStatus.done none none,
            Message.mk ("a1".toList) Role.assistant [] none 0 MsgStatus.streaming
              none none])).messages[1]? =
      some { Message.mk ("a1".toList) Role.assistant [] none 0 MsgStatus.streaming
          none none with
        content := ([] : Str) ++ (["He".toList, "llo".toList]).flatten
        status := if (["He".toList, "llo".toList]).isEmpty then MsgStatus.streaming
          else MsgStatus.streaming }) ∧
    ((applyDelta ("a1".toList) ("He".toList) 5
        (Conversation.mk ("c1".toList) ("t".toList) 0 0 [] (7 / 10) 512 none none
          [Message.mk ("u1".toList) Role.user ("Hi".toList) none 0 MsgStatus.done none none,
            Message.mk ("a1".toList) Role.assistant [] none 0 MsgStatus.streaming
              none none])).messages[0]? =
      some (Message.mk ("u1".toList) Role.user ("Hi".toList) none 0 MsgStatus.done none none)) :=
  ⟨((applyDelta_frame ("a1".toList) ("He".toList) 5
      (Conversation.mk ("c1".toList) ("t".toList) 0 0 [] (7 / 10) 512 none none
        [Message.mk ("u1".toList) Role.user ("Hi".toList) none 0 MsgStatus.done none none,
          Message.mk ("a1".toList) Role.assistant [] none 0 MsgStatus.streaming
            none none])).2.2 (["He".toList, "llo".toList]) 1
      (Message.mk ("a1".toList) Role.assistant [] none 0 MsgStatus.streaming none none)
      rfl rfl),
    (((applyDelta_frame ("a1".toList) ("He".toList) 5
      (Conversation.mk ("c1".toList) ("t".toList) 0 0 [] (7 / 10) 512 none none
        [Message.mk ("u1".toList) Role.user ("Hi".toList) none 0 MsgStatus.done none none,
          Message.mk ("a1".toList) Role.assistant [] none 0 MsgStatus.streaming
            none none])).2.1 0
      (Message.mk ("u1".toList) Role.user ("Hi".toList) none 0 MsgStatus.done none none)
      rfl).2 (by decide))⟩

theorem findUserIndex_bound_count (userMsgId : Str) :
    ∀ (l : List Message) (i : Nat), findUserIndex userMsgId l = some i →
      i < l.length ∧
      (l.take (i + 1)).countP
          (fun m => decide (m.id = userMsgId ∧ m.role = Role.user)) = 1 := by
  intro l
  induction l with
  | nil => intro i h; simp [findUserIndex] at h
  | cons m rest ih =>
    intro i h
    by_cases hp : m.id = userMsgId ∧ m.role = Role.user
    · rw [findUserIndex, if_pos hp] at h
      cases h
      constructor
      · simp
      · simp [List.countP_cons, hp]
    · rw [findUserIndex, if_neg hp] at h
      rcases Option.map_eq_some'.mp h with ⟨j, hj, hij⟩
      rcases ih j hj with ⟨hlt, hcount⟩
      subst hij
      constructor
      · simpa using hlt
      · rw [show j + 1 + 1 = (j + 1) + 1 by omega, List.take_succ_cons,
          List.countP_cons]
        have hfun : (fun (m : Message) => decide (m.id = userMsgId ∧ m.role = Role.user)) =
            (fun (m : Message) => decide (m.id = userMsgId) && decide (m.role = Role.user)) :=
          funext (fun m => by
            by_cases h1 : m.id = userMsgId <;> by_cases h2 : m.role = Role.user <;>
              simp [h1, h2])
        rw [hfun] at hcount
        simp [hp, hcount]

/-- C4: with no stream in flight, resend anchored at the user message at
index `i` (the first message with the anchor id and the user role, and a
fresh placeholder id not yet in the log) keeps exactly the `i + 1`
messages up to and including the anchor, appends exactly one fresh
assistant placeholder with the new id and status `streaming`, and leaves
exactly one copy of the anchor user message and one message carrying the
fresh id. -/
theorem runFromUserMessage_resend (freshId : Str) (tNow : Nat) (c : Conversation)
    (userMsgId : Str) (i : Nat)
    (hfind : findUserIndex userMsgId c.messages = some i)
    (hfresh : ∀ m ∈ c.messages, m.id ≠ freshId) :
    (runFromUserMessage false freshId tNow c userMsgId).messages.length = i + 2 ∧
    (runFromUserMessage false freshId tNow c userMsgId).messages.take (i + 1) =
      c.messages.take (i + 1) ∧
    (runFromUserMessage false freshId tNow c userMsgId).messages[i + 1]? =
      some (Message.mk freshId Role.assistant [] none tNow MsgStatus.streaming
        (some { MessageMeta.empty with
          model := optTrim c.modelId
          serverId := optTrim c.serverId }) none) ∧
    (runFromUserMessage false freshId tNow c userMsgId).messages.countP
        (fun m => decide (m.id = userMsgId ∧ m.role = Role.user)) = 1 ∧
    (runFromUserMessage false freshId tNow c userMsgId).messages.countP
        (fun m => decide (m.id = freshId)) = 1 := by
  obtain ⟨hlt, hcount⟩ := findUserIndex_bound_count userMsgId c.messages i hfind
  have hlen : (c.messages.take (i + 1)).length = i + 1 := by
    simp [List.length_take]; omega
  have hmsgs : (runFromUserMessage false freshId tNow c userMsgId).messages =
      c.messages.take (i + 1) ++
        [Message.mk freshId Role.assistant [] none tNow MsgStatus.streaming
          (some { MessageMeta.empty with
            model := optTrim c.modelId
            serverId := optTrim c.serverId }) none] := by
    simp [runFromUserMessage, hfind]
  refine ⟨?_, ?_, ?_, ?_, ?_⟩
  · rw [hmsgs]; simp [hlen]
  · rw [hmsgs, List.take_left' hlen]
  · rw [hmsgs, List.getElem?_append_right (by omega : (c.messages.take (i + 1)).length ≤ i + 1)]
    simp [hlen]
  · rw [hmsgs, List.countP_append]
    have h0 : (List.countP (fun m => decide (m.id = userMsgId ∧ m.role = Role.user))
        [Message.mk freshId Role.assistant [] none tNow MsgStatus.streaming
          (some { MessageMeta.empty with
            model := optTrim c.modelId
            serverId := optTrim c.serverId }) none]) = 0 := by simp
    rw [h0, hcount]
  · rw [hmsgs, List.countP_append]
    have h0 : (c.messages.take (i + 1)).countP (fun m => decide (m.id = freshId)) = 0 := by
      apply List.countP_eq_zero.mpr
      intro m hm
      simpa using hfresh m (List.take_subset _ _ hm)
    rw [h0]
    simp

/-- C4 (witness): resending anchored at the first user message of a
three-message log leaves two messages: the anchor and a fresh streaming
assistant placeholder. -/
theorem runFromUserMessage_resend_witness :
    (runFromUserMessage false ("f1".toList) 9 sampleResendConv ("u1".toList)).messages.length
        = 0 + 2 ∧
    (runFromUserMessage false ("f1".toList) 9 sampleResendConv ("u1".toList)).messages.take
        (0 + 1) = sampleResendConv.messages.take (0 + 1) ∧
    (runFromUserMessage false ("f1".toList) 9 sampleResendConv ("u1".toList)).messages[0 + 1]?
        = some (Message.mk ("f1".toList) Role.assistant [] none 9 MsgStatus.streaming
          (some { MessageMeta.empty with
            model := optTrim sampleResendConv.modelId
            serverId := optTrim sampleResendConv.serverId }) none) ∧
    (runFromUserMessage false ("f1".toList) 9 sampleResendConv ("u1".toList)).messages.countP
        (fun m => decide (m.id = "u1".toList ∧ m.role = Role.user)) = 1 ∧
    (runFromUserMessage false ("f1".toList) 9 sampleResendConv ("u1".toList)).messages.countP
        (fun m => decide (m.id = "f1".toList)) = 1 :=
  runFromUserMessage_resend ("f1".toList) 9 sampleResendConv ("u1".toList) 0 rfl (by decide)

theorem buildLoop_eq (sv ntk : Bool) (upto : Option Str) :
    ∀ msgs : List Message,
      buildLoop sv ntk upto msgs =
        ((takeToAnchor upto msgs).filter (fun m => !(m.role == Role.system))).map
          (translateMsg sv ntk) := by
  intro msgs
  induction msgs with
  | nil => rfl
  | cons m rest ih =>
    by_cases hs : m.role = Role.system
    · have hcond : ¬(m.role ≠ Role.system ∧ upto = some m.id) := by simp [hs]
      simp only [buildLoop, takeToAnchor, if_pos hs, if_neg hcond, List.filter_cons]
      simp [hs, ih]
    · by_cases hu : upto = some m.id
      · have hcond : m.role ≠ Role.system ∧ upto = some m.id := ⟨hs, hu⟩
        simp only [buildLoop, takeToAnchor, if_neg hs, if_pos hcond, if_pos hu,
          List.filter_cons]
        simp [hs]
      · have hcond : ¬(m.role ≠ Role.system ∧ upto = some m.id) := by simp [hu]
        simp only [buildLoop, takeToAnchor, if_neg hs, if_neg hcond, if_neg hu,
          List.filter_cons]
        simp [hs, ih]

/-- C7 (amended): the model-facing message list starts with a system
message carrying the conversation's (untrimmed) system prompt exactly
when the trimmed prompt is non-empty, followed by every prior
**non-system** message of the log in order — up to the anchor when one is
given — each translated by `translateMsg`; a non-vision model always
receives plain string content (second conjunct), and a model that does
not require the `<image>` marker receives the user text unmarked in the
expanded payload (third conjunct).  System-role log entries are dropped,
which is the one correction to the original claim (see the
counterexample). -/
theorem buildMessagesForModel_spec (c : Conversation) (sv : Bool) (upto : Option Str) :
    buildMessagesForModel c sv upto =
      (if (trimStr c.systemPrompt).length > 0 then
        [ModelMessage.mk Role.system (ModelContent.text c.systemPrompt)]
      else []) ++
        ((takeToAnchor upto c.messages).filter (fun m => !(m.role == Role.system))).map
          (translateMsg sv (requiresImageToken (c.modelId.getD []))) ∧
    (∀ m : Message, translateMsg false (requiresImageToken (c.modelId.getD [])) m =
      ModelMessage.mk m.role (ModelContent.text m.content)) ∧
    (∀ (m : Message) (img : ImageAttachment), m.image = some img →
      translateMsg sv false m =
        if sv && (m.role == Role.user) && !(img.dataUrl == []) then
          ModelMessage.mk m.role (ModelContent.parts
            ((if (trimStr m.content).length > 0 then [ChatContentPart.textPart m.content]
              else []) ++ [ChatContentPart.imagePart img.dataUrl]))
        else ModelMessage.mk m.role (ModelContent.text m.content)) := by
  refine ⟨?_, ?_, ?_⟩
  · rw [buildMessagesForModel, buildLoop_eq]
  · intro m
    simp [translateMsg]
  · intro m img him
    have hip : imagePresent m = !(img.dataUrl == []) := by rw [imagePresent, him]
    by_cases h : (sv && (m.role == Role.user) && !(img.dataUrl == [])) = true
    · rw [if_pos h]
      simp only [translateMsg, hip, h, if_true]
      simp [him]
    · rw [if_neg h]
      simp only [translateMsg, hip]
      rw [if_neg h]

/-- C7 (counterexample): the original claim promises every prior message
of the conversation in the model-facing list, but a system-role log
entry is skipped by the loop: this one-message log yields an empty
model-facing list. -/
theorem buildMessagesForModel_drops_system_cex :
    buildMessagesForModel
        (Conversation.mk ("c1".toList) ("t".toList) 0 0 [] (7 / 10) 512 none none
          [Message.mk ("s1".toList) Role.system ("S".toList) none 0 MsgStatus.done none none])
        false none = [] ∧
    (Conversation.mk ("c1".toList) ("t".toList) 0 0 [] (7 / 10) 512 none none
        [Message.mk ("s1".toList) Role.system ("S".toList) none 0 MsgStatus.done none none]
      : Conversation).messages.length = 1 :=
  ⟨rfl, rfl⟩

/-- C7 (witness): on a conversation with system prompt `sys` and one
image-bearing user message, a vision-capable model (with no marker
requirement) receives the leading system message followed by the
multi-part user payload. -/
theorem buildMessagesForModel_spec_witness :
    buildMessagesForModel sampleVisionConv true none =
      [ModelMessage.mk Role.system (ModelContent.text ("sys".toList)),
        ModelMessage.mk Role.user (ModelContent.parts
          [ChatContentPart.textPart ("Hi".toList),
            ChatContentPart.imagePart ("img://1".toList)])] := by
  rw [(buildMessagesForModel_spec sampleVisionConv true none).1]
  rfl

theorem sanitizeMsg_toRaw (fid : Str) (t : Nat) (m : Message) :
    sanitizeMsg fid t (toRawMsg m) = m := by
  obtain ⟨mid, mrole, mcontent, mimage, mcreated, mstatus, mmeta, merror⟩ := m
  cases mimage <;> rfl

theorem mapWithIdx_sanitizeMsg_toRaw (fm : Nat → Str) (t : Nat) :
    ∀ (l : List Message) (k : Nat),
      mapWithIdx (fun i rm => sanitizeMsg (fm i) t rm) k (l.map toRawMsg) = l := by
  intro l
  induction l with
  | nil => intro k; rfl
  | cons m rest ih =>
    intro k
    simp only [List.map_cons, mapWithIdx, sanitizeMsg_toRaw, ih (k + 1)]

theorem sanitizeConv_toRaw_key (ex : List Str) (fc : Str) (fm : Nat → Str) (t : Nat)
    (c : Conversation) (h : c.id ∉ ex) :
    (sanitizeConv ex fc fm t (toRawConv c)).map convKey = some (convKey c) := by
  unfold sanitizeConv importTitle toRawConv
  simp [h, convKey, mapWithIdx_sanitizeMsg_toRaw]

theorem mapWithIdx_length (f : Nat → α → β) :
    ∀ (l : List α) (k : Nat), (mapWithIdx f k l).length = l.length := by
  intro l
  induction l with
  | nil => intro k; rfl
  | cons a rest ih => intro k; simp [mapWithIdx, ih (k + 1)]

theorem mapWithIdx_sanitize_key (store : List Conversation) (fCid : Nat → Str)
    (fMid : Nat → Nat → Str) (t : Nat) :
    ∀ (convs : List Conversation) (k : Nat),
      (∀ c ∈ convs, c.id ∉ store.map Conversation.id) →
      (mapWithIdxOpt
          (fun i rc =>
            sanitizeConv (store.map Conversation.id) (fCid i) (fMid i) t rc)
          k (convs.map toRawConv)).map (List.map convKey) =
        some (convs.map convKey) := by
  intro convs
  induction convs with
  | nil => intro k _; rfl
  | cons c rest ih =>
    intro k hd
    have hc := sanitizeConv_toRaw_key (store.map Conversation.id) (fCid k) (fMid k) t c
      (hd c (by simp))
    have hrest := ih (k + 1) (fun x hx => hd x (by simp [hx]))
    cases hs : sanitizeConv (store.map Conversation.id) (fCid k) (fMid k) t
        (toRawConv c) with
    | none => rw [hs] at hc; exact Option.noConfusion hc
    | some c2 =>
      rw [hs] at hc
      simp only [Option.map_some', Option.some.injEq] at hc
      cases hr : mapWithIdxOpt
          (fun i rc =>
            sanitizeConv (store.map Conversation.id) (fCid i) (fMid i) t rc)
          (k + 1) (rest.map toRawConv) with
      | none => rw [hr] at hrest; exact Option.noConfusion hrest
      | some l =>
        rw [hr] at hrest
        simp only [Option.map_some', Option.some.injEq] at hrest
        simp only [List.map_cons, mapWithIdxOpt, hs, hr, Option.map_some',
          Option.some.injEq, List.map_cons]
        rw [hc, hrest]

/-- C9: exporting all conversations and importing the payload into a
store with no colliding ids reproduces the conversations at the head of
the store — same length, same conversation ids and same message ids,
contents and statuses (`convKey`) — with the pre-existing store intact
behind them. -/
theorem export_import_roundtrip (store convs : List Conversation) (fCid : Nat → Str)
    (fMid : Nat → Nat → Str) (tExp tImp : Nat) (activeId : Option Str)
    (hdisj : ∀ c ∈ convs, c.id ∉ store.map Conversation.id) :
    (onImportFile store fCid fMid tImp
        ((exportAll tExp activeId convs).conversations.map toRawConv)).length =
      convs.length + store.length ∧
    ((onImportFile store fCid fMid tImp
        ((exportAll tExp activeId convs).conversations.map toRawConv)).take
      convs.length).map convKey = convs.map convKey ∧
    (onImportFile store fCid fMid tImp
        ((exportAll tExp activeId convs).conversations.map toRawConv)).drop
      convs.length = store := by
  cases convs with
  | nil => simp [onImportFile, exportAll]
  | cons c rest =>
    have hne : (((c :: rest).map toRawConv).isEmpty) = false := by simp
    have hkey := mapWithIdx_sanitize_key store fCid fMid tImp (c :: rest) 0 hdisj
    cases hs : mapWithIdxOpt
        (fun i rc =>
          sanitizeConv (store.map Conversation.id) (fCid i) (fMid i) tImp rc)
        0 ((c :: rest).map toRawConv) with
    | none => rw [hs] at hkey; exact Option.noConfusion hkey
    | some sanitized =>
      rw [hs] at hkey
      simp only [Option.map_some', Option.some.injEq] at hkey
      have hlen : sanitized.length = (c :: rest).length := by
        have hl := congrArg List.length hkey
        simpa using hl
      have hout : onImportFile store fCid fMid tImp
          ((exportAll tExp activeId (c :: rest)).conversations.map toRawConv) =
        sanitized ++ store := by
        simp only [onImportFile, exportAll, hne, hs]
        simp
      refine ⟨?_, ?_, ?_⟩
      · rw [hout, List.length_append, hlen]
      · rw [hout, List.take_left' hlen, hkey]
      · rw [hout, List.drop_left' hlen]

/-- C9 (witness): a one-conversation store round-trips through export
and import on top of a disjoint one-conversation store. -/
theorem export_import_roundtrip_witness :
    (onImportFile [sampleResendConv] (fun _ => "g".toList) (fun _ _ => "h".toList) 5
        ((exportAll 3 none [sampleVisionConv]).conversations.map toRawConv)).length =
      [sampleVisionConv].length + [sampleResendConv].length ∧
    ((onImportFile [sampleResendConv] (fun _ => "g".toList) (fun _ _ => "h".toList) 5
        ((exportAll 3 none [sampleVisionConv]).conversations.map toRawConv)).take
      [sampleVisionConv].length).map convKey = [sampleVisionConv].map convKey ∧
    (onImportFile [sampleResendConv] (fun _ => "g".toList) (fun _ _ => "h".toList) 5
        ((exportAll 3 none [sampleVisionConv]).conversations.map toRawConv)).drop
      [sampleVisionConv].length = [sampleResendConv] :=
  export_import_roundtrip [sampleResendConv] [sampleVisionConv]
    (fun _ => "g".toList) (fun _ _ => "h".toList) 3 5 none (by decide)

